import Mathlib

/-!
Shallow embedding of `gochain.go` (package web3), a thin wrapper over the
gochain `goclient` RPC library.  The wrapped library (`goclient.Client`,
`common`, `crypto`, `hexutil`, `types`) is external to the repository and is
modelled as oracles: a `GoClient` structure holding the outcome of each
remote call, and a `Lib` structure holding the pure library functions the
wrapper invokes.  Go `(T, error)` return pairs are modelled as `Except Err T`,
`*big.Int` as `Option Int` where nilness matters, and the cancellation
context as a `Ctx` record saying whether `ctx.Done()` fires during the wait
following a given polling attempt.
-/

namespace Web3

/-- Go `error` values, observed through their `Error()` string (the wrapper
only ever rewraps them with `fmt.Sprintf("...:%s", err)`). -/
abbrev Err := String

/-- Model of `common.Address` (20-byte address); abstract. -/
abbrev Address := String

/-- Model of `common.Hash`; its Go zero value is modelled as `0`. -/
abbrev Hash := Nat

/-- Raw byte strings (`[]byte`). -/
abbrev Bytes := List Nat

/-- Model of `ecdsa.PrivateKey` (abstract). -/
abbrev PrivateKey := Nat

/-- Model of `crypto.PublicKey` as returned by `privateKey.Public()` (abstract). -/
abbrev PublicKey := Nat

/-- Model of a `*ecdsa.PublicKey`, the target of the type assertion in `DeployContract`. -/
abbrev PublicKeyECDSA := Nat

/-- Model of `clique.Snapshot` (abstract). -/
abbrev Snapshot := Nat

/-- Model of `types.Receipt` (abstract). -/
abbrev Receipt := Nat

/-- Model of `types.Block`; the wrapper only calls its `Hash()` method. -/
structure Block where
  hash : Hash
  deriving DecidableEq, Repr

/-- Model of `types.Transaction`; the wrapper only calls its `Hash()` method. -/
structure Transaction where
  hash : Hash
  deriving DecidableEq, Repr

/-- Oracle for the remote `goclient.Client`.  Each field records the outcome
the underlying library call would produce for the given arguments.
`transactionReceipt` additionally takes the index of the polling attempt,
since `WaitForReceipt` repeats the same call over time. -/
structure GoClient where
  balanceAt : Address → Option Int → Except Err Int
  codeAt : Address → Option Int → Except Err Bytes
  blockByNumber : Option Int → Except Err Block
  transactionByHash : Hash → Except Err (Transaction × Bool)
  snapshotAt : Option Int → Except Err Snapshot
  networkID : Except Err Int
  chainID : Except Err Int
  suggestGasPrice : Except Err Int
  pendingNonceAt : Address → Except Err Nat
  sendTransaction : Transaction → Except Err Unit
  transactionReceipt : Nat → Hash → Except Err Receipt

/-- Oracle for the pure library functions the wrapper calls
(`common.HexToAddress`, `common.HexToHash`, `crypto.HexToECDSA`,
`privateKey.Public()`, the `*ecdsa.PublicKey` type assertion,
`crypto.PubkeyToAddress`, `hexutil.Decode`, `types.NewContractCreation`,
`types.SignTx` with the `HomesteadSigner`). -/
structure Lib where
  hexToAddress : String → Address
  hexToHash : String → Hash
  hexToECDSA : String → Except Err PrivateKey
  publicOf : PrivateKey → PublicKey
  castECDSA : PublicKey → Option PublicKeyECDSA
  pubkeyToAddress : PublicKeyECDSA → Address
  hexDecode : String → Except Err Bytes
  newContractCreation : Nat → Int → Nat → Int → Bytes → Transaction
  signTx : Transaction → PrivateKey → Transaction × Option Err

/-- A `context.Context` as observed by `WaitForReceipt`: `doneAt i` says
whether `ctx.Done()` fires during the `select` wait that follows polling
attempt `i`, and `err` is the value of `ctx.Err()` then. -/
structure Ctx where
  doneAt : Nat → Bool
  err : Err

/-- The `RPCClient` struct: a URL plus the underlying `goclient.Client`. -/
structure RPCClient where
  url : String
  client : GoClient

/-- Function `NetworkURL`: the network-name to RPC-endpoint resolution switch. -/
def NetworkURL (network : String) : String :=
  if network = "testnet" then "https://testnet-rpc.gochain.io"
  else if network = "mainnet" ∨ network = "" then "https://rpc.gochain.io"
  else if network = "localhost" then "http://localhost:8545"
  else if network = "ethereum" then "https://main-rpc.linkpool.io"
  else if network = "ropsten" then "https://ropsten-rpc.linkpool.io"
  else ""

/-- Method `GetBalance`: delegates to `client.BalanceAt(ctx, common.HexToAddress(address), blockNumber)`.
The second component is the receiver after the call (no field is assigned). -/
def GetBalance (lib : Lib) (rpc : RPCClient) (ctx : Ctx) (address : String)
    (blockNumber : Option Int) : Except Err Int × RPCClient :=
  (rpc.client.balanceAt (lib.hexToAddress address) blockNumber, rpc)

/-- Method `GetCode`: delegates to `client.CodeAt`. -/
def GetCode (lib : Lib) (rpc : RPCClient) (ctx : Ctx) (address : String)
    (blockNumber : Option Int) : Except Err Bytes × RPCClient :=
  (rpc.client.codeAt (lib.hexToAddress address) blockNumber, rpc)

/-- Method `GetBlockByNumber`: delegates to `client.BlockByNumber`. -/
def GetBlockByNumber (rpc : RPCClient) (ctx : Ctx) (number : Option Int) :
    Except Err Block × RPCClient :=
  (rpc.client.blockByNumber number, rpc)

/-- Method `GetTransactionByHash`: delegates to `client.TransactionByHash(ctx, common.HexToHash(hash))`. -/
def GetTransactionByHash (lib : Lib) (rpc : RPCClient) (ctx : Ctx) (hash : String) :
    Except Err (Transaction × Bool) × RPCClient :=
  (rpc.client.transactionByHash (lib.hexToHash hash), rpc)

/-- Method `GetSnapshot`: delegates to `client.SnapshotAt(ctx, nil)`. -/
def GetSnapshot (rpc : RPCClient) (ctx : Ctx) : Except Err Snapshot × RPCClient :=
  (rpc.client.snapshotAt none, rpc)

/-- The `ID` struct: network ID, chain ID, genesis hash.  The `*big.Int`
fields are `Option Int` (Go nil = `none`); the hash field's zero value is `0`. -/
structure ID where
  networkID : Option Int
  chainID : Option Int
  genesisHash : Hash
  deriving DecidableEq, Repr

/-- Method `GetID`: queries network ID, chain ID and the genesis block; on each
failure it logs and leaves the corresponding field of the zero-initialised
`var id ID` untouched; it always returns `&id, nil`. -/
def GetID (rpc : RPCClient) (ctx : Ctx) : Except Err ID × RPCClient :=
  let id0 : ID := { networkID := none, chainID := none, genesisHash := 0 }
  let netID : Option Int :=
    match rpc.client.networkID with
    | .ok n => some n
    | .error _ => none
  let id1 : ID := if netID.isSome then { id0 with networkID := netID } else id0
  let chainID : Option Int :=
    match rpc.client.chainID with
    | .ok c => some c
    | .error _ => none
  let id2 : ID := if chainID.isSome then { id1 with chainID := chainID } else id1
  let gen : Option Block :=
    match rpc.client.blockByNumber (some 0) with
    | .ok b => some b
    | .error _ => none
  let id3 : ID :=
    match gen with
    | some b => { id2 with genesisHash := b.hash }
    | none => id2
  (.ok id3, rpc)

/-- Method `DeployContract`: strips an optional `0x` prefix from the private key,
parses it, fetches the suggested gas price, casts the public key, fetches the
pending nonce at the sender address, hex-decodes the contract data, builds and
signs a contract-creation transaction (value 0, gas limit 2000000), and sends
it.  Every failing step returns `nil` plus a prefixed error; the `SignTx`
error is discarded, mirroring `signedTx, _ := types.SignTx(...)`. -/
def DeployContract (lib : Lib) (rpc : RPCClient) (ctx : Ctx)
    (privateKeyHex : String) (contractData : String) :
    Except Err Transaction × RPCClient :=
  let privateKeyHex :=
    if privateKeyHex.length > 2 ∧ privateKeyHex.take 2 = "0x" then
      privateKeyHex.drop 2
    else privateKeyHex
  match lib.hexToECDSA privateKeyHex with
  | .error e => (.error ("Wrong private key:" ++ e), rpc)
  | .ok privateKey =>
    match rpc.client.suggestGasPrice with
    | .error e => (.error ("Cannot get gas price:" ++ e), rpc)
    | .ok gasPrice =>
      match lib.castECDSA (lib.publicOf privateKey) with
      | none => (.error "error casting public key to ECDSA", rpc)
      | some publicKeyECDSA =>
        let fromAddress := lib.pubkeyToAddress publicKeyECDSA
        match rpc.client.pendingNonceAt fromAddress with
        | .error e => (.error ("Cannot get nonce:" ++ e), rpc)
        | .ok nonce =>
          match lib.hexDecode contractData with
          | .error e => (.error ("Cannot decode contract data:" ++ e), rpc)
          | .ok decodedContractData =>
            let tx := lib.newContractCreation nonce 0 2000000 gasPrice decodedContractData
            let signedTx := (lib.signTx tx privateKey).1
            match rpc.client.sendTransaction signedTx with
            | .error e => (.error ("Cannot send transaction:" ++ e), rpc)
            | .ok _ => (.ok signedTx, rpc)

/-- Value of `time.Second` in nanoseconds, as in Go's `time` package. -/
def timeSecond : Nat := 1000000000

/-- Observable outcome of one run of `WaitForReceipt`: the `(receipt, error)`
return value, the number of `TransactionReceipt` calls made, and the list of
completed `time.After` wait durations (in nanoseconds) between attempts. -/
structure WaitTrace where
  result : Except Err Receipt
  attempts : Nat
  waits : List Nat
  deriving Repr

/-- The body of `WaitForReceipt`'s `for i := 0; ; i++` loop, starting at
iteration `i`: poll `TransactionReceipt(ctx, tx.Hash())`; return the receipt
on success; if `i >= 5`, give up with a wrapped error; otherwise `select` on
`ctx.Done()` (returning `nil, ctx.Err()`) versus `time.After(2 * time.Second)`
and loop. -/
def WaitForReceiptFrom (rpc : RPCClient) (ctx : Ctx) (tx : Transaction) (i : Nat) :
    WaitTrace :=
  match rpc.client.transactionReceipt i tx.hash with
  | .ok receipt => { result := .ok receipt, attempts := 1, waits := [] }
  | .error err =>
    if h5 : i ≥ 5 then
      { result := .error ("Cannot get the receipt:" ++ err), attempts := 1, waits := [] }
    else if ctx.doneAt i then
      { result := .error ctx.err, attempts := 1, waits := [] }
    else
      let rest := WaitForReceiptFrom rpc ctx tx (i + 1)
      { result := rest.result, attempts := rest.attempts + 1,
        waits := 2 * timeSecond :: rest.waits }
termination_by 6 - i
decreasing_by omega

/-- Method `WaitForReceipt`: the loop started at `i = 0`; the receiver is returned
unchanged alongside the trace. -/
def WaitForReceipt (rpc : RPCClient) (ctx : Ctx) (tx : Transaction) :
    WaitTrace × RPCClient :=
  (WaitForReceiptFrom rpc ctx tx 0, rpc)

/-- The exported operations of the client, as one sum type (the arguments a
caller supplies to each method). -/
inductive Op where
  | getBalance (address : String) (blockNumber : Option Int)
  | getCode (address : String) (blockNumber : Option Int)
  | getBlockByNumber (number : Option Int)
  | getTransactionByHash (hash : String)
  | getSnapshot
  | getID
  | deployContract (privateKeyHex : String) (contractData : String)
  | waitForReceipt (tx : Transaction)

/-- Program state visible across operations: the receiver's fields, plus the
heap of identity records handed out by `GetID` so far (each `GetID` call
allocates a fresh `ID` and returns a pointer to it). -/
structure St where
  rpc : RPCClient
  ids : List ID

/-- Running one operation on the state: each method is invoked on the current
receiver and yields the receiver it leaves behind; `getID` additionally
allocates the identity record it returns. -/
def runOp (lib : Lib) (ctx : Ctx) : Op → St → St
  | Op.getBalance a bn, s => { s with rpc := (GetBalance lib s.rpc ctx a bn).2 }
  | Op.getCode a bn, s => { s with rpc := (GetCode lib s.rpc ctx a bn).2 }
  | Op.getBlockByNumber n, s => { s with rpc := (GetBlockByNumber s.rpc ctx n).2 }
  | Op.getTransactionByHash h, s => { s with rpc := (GetTransactionByHash lib s.rpc ctx h).2 }
  | Op.getSnapshot, s => { s with rpc := (GetSnapshot s.rpc ctx).2 }
  | Op.getID, s =>
    let r := GetID s.rpc ctx
    { rpc := r.2,
      ids := s.ids ++ (match r.1 with | .ok id => [id] | .error _ => []) }
  | Op.deployContract pk d, s => { s with rpc := (DeployContract lib s.rpc ctx pk d).2 }
  | Op.waitForReceipt tx, s => { s with rpc := (WaitForReceipt s.rpc ctx tx).2 }

/-! Concrete oracle instances, used to evaluate the definitions on closed
inputs (witnesses and counterexamples). -/

/-- A library oracle with trivial deterministic behaviour. -/
def plainLib : Lib where
  hexToAddress s := s
  hexToHash _ := 77
  hexToECDSA _ := .ok 11
  publicOf k := k + 1
  castECDSA p := some p
  pubkeyToAddress _ := "0xsender"
  hexDecode _ := .ok [1, 2, 3]
  newContractCreation nonce _ gasLimit _ data := ⟨nonce + gasLimit + data.length⟩
  signTx tx _ := (⟨tx.hash + 1⟩, none)

/-- A remote-client oracle on which every call succeeds. -/
def okClient : GoClient where
  balanceAt _ _ := .ok 100
  codeAt _ _ := .ok [0, 1]
  blockByNumber _ := .ok ⟨5⟩
  transactionByHash _ := .ok (⟨8⟩, false)
  snapshotAt _ := .ok 3
  networkID := .ok 60
  chainID := .ok 60
  suggestGasPrice := .ok 2
  pendingNonceAt _ := .ok 4
  sendTransaction _ := .ok ()
  transactionReceipt _ _ := .ok 9

/-- A remote-client oracle on which every call fails with error `"boom"`. -/
def boomClient : GoClient where
  balanceAt _ _ := .error "boom"
  codeAt _ _ := .error "boom"
  blockByNumber _ := .error "boom"
  transactionByHash _ := .error "boom"
  snapshotAt _ := .error "boom"
  networkID := .error "boom"
  chainID := .error "boom"
  suggestGasPrice := .error "boom"
  pendingNonceAt _ := .error "boom"
  sendTransaction _ := .error "boom"
  transactionReceipt _ _ := .error "boom"

/-- A client handle over `okClient`. -/
def okRPC : RPCClient where
  url := "https://testnet-rpc.gochain.io"
  client := okClient

/-- A client handle over `boomClient`. -/
def boomRPC : RPCClient where
  url := "https://rpc.gochain.io"
  client := boomClient

/-- A library oracle whose private-key parsing fails with `"boom"`. -/
def badKeyLib : Lib :=
  { plainLib with hexToECDSA := fun _ => .error "boom" }

/-- A remote client whose `TransactionReceipt` fails on attempts 0 and 1 and
succeeds from attempt 2 on; all other calls succeed. -/
def lateReceiptClient : GoClient :=
  { okClient with
    transactionReceipt := fun i _ => if i < 2 then .error "not found" else .ok 9 }

/-- A context that never fires. -/
def quietCtx : Ctx where
  doneAt _ := false
  err := "context canceled"

/-- A context that fires during the wait after attempt 1. -/
def lateCtx : Ctx where
  doneAt i := decide (1 ≤ i)
  err := "context canceled"

/-! Helper lemmas about the polling loop. -/

/-- Every run of the loop makes at least one `TransactionReceipt` call. -/
lemma wfr_attempts_pos (rpc : RPCClient) (ctx : Ctx) (tx : Transaction) (i : Nat) :
    1 ≤ (WaitForReceiptFrom rpc ctx tx i).attempts := by
  unfold WaitForReceiptFrom
  cases rpc.client.transactionReceipt i tx.hash with
  | ok r => simp
  | error e =>
    by_cases h5 : i ≥ 5
    · simp [h5]
    · by_cases hd : ctx.doneAt i
      · simp [h5, hd]
      · simp [h5, hd]

/-- The completed waits of a run are one fewer than its attempts, and every
one of them lasts `2 * time.Second`. -/
lemma wfr_waits_replicate (rpc : RPCClient) (ctx : Ctx) (tx : Transaction) :
    ∀ d i, 6 - i ≤ d →
      (WaitForReceiptFrom rpc ctx tx i).waits =
        List.replicate ((WaitForReceiptFrom rpc ctx tx i).attempts - 1) (2 * timeSecond) := by
  intro d
  induction d with
  | zero =>
    intro i hle
    have h5 : i ≥ 5 := by omega
    unfold WaitForReceiptFrom
    cases rpc.client.transactionReceipt i tx.hash with
    | ok r => simp
    | error e => simp [h5]
  | succ d ih =>
    intro i hle
    unfold WaitForReceiptFrom
    cases rpc.client.transactionReceipt i tx.hash with
    | ok r => simp
    | error e =>
      by_cases h5 : i ≥ 5
      · simp [h5]
      · by_cases hd : ctx.doneAt i
        · simp [h5, hd]
        · have hrest := ih (i + 1) (by omega)
          have hpos := wfr_attempts_pos rpc ctx tx (i + 1)
          simp only [h5, hd, dif_neg, if_neg, Bool.false_eq_true, not_false_iff]
          simp only [hrest]
          have : (WaitForReceiptFrom rpc ctx tx (i + 1)).attempts + 1 - 1 =
              ((WaitForReceiptFrom rpc ctx tx (i + 1)).attempts - 1) + 1 := by omega
          simp [this, List.replicate_succ]

/-- Small step: a successful attempt returns the receipt at once. -/
lemma wfr_ok_step (rpc : RPCClient) (ctx : Ctx) (tx : Transaction) (i : Nat) (r : Receipt)
    (he : rpc.client.transactionReceipt i tx.hash = .ok r) :
    WaitForReceiptFrom rpc ctx tx i = { result := .ok r, attempts := 1, waits := [] } := by
  rw [WaitForReceiptFrom.eq_def, he]

/-- Small step: a failed attempt at index `i ≥ 5` gives up with the wrapped error. -/
lemma wfr_giveup_step (rpc : RPCClient) (ctx : Ctx) (tx : Transaction) (i : Nat) (e : Err)
    (he : rpc.client.transactionReceipt i tx.hash = .error e) (h5 : 5 ≤ i) :
    WaitForReceiptFrom rpc ctx tx i =
      { result := .error ("Cannot get the receipt:" ++ e), attempts := 1, waits := [] } := by
  rw [WaitForReceiptFrom.eq_def, he]
  simp [h5]

/-- Small step: after a failed attempt at `i < 5`, a fired context aborts with
the context error. -/
lemma wfr_cancel_step (rpc : RPCClient) (ctx : Ctx) (tx : Transaction) (i : Nat) (e : Err)
    (he : rpc.client.transactionReceipt i tx.hash = .error e) (h5 : i < 5)
    (hd : ctx.doneAt i = true) :
    WaitForReceiptFrom rpc ctx tx i =
      { result := .error ctx.err, attempts := 1, waits := [] } := by
  rw [WaitForReceiptFrom.eq_def, he]
  have h5n : ¬ i ≥ 5 := by omega
  simp [h5n, hd]

/-- Small step: after a failed attempt at `i < 5` with a quiet context, the
loop waits two seconds and continues at `i + 1`. -/
lemma wfr_loop_step (rpc : RPCClient) (ctx : Ctx) (tx : Transaction) (i : Nat) (e : Err)
    (he : rpc.client.transactionReceipt i tx.hash = .error e) (h5 : i < 5)
    (hd : ctx.doneAt i = false) :
    WaitForReceiptFrom rpc ctx tx i =
      { result := (WaitForReceiptFrom rpc ctx tx (i + 1)).result,
        attempts := (WaitForReceiptFrom rpc ctx tx (i + 1)).attempts + 1,
        waits := 2 * timeSecond :: (WaitForReceiptFrom rpc ctx tx (i + 1)).waits } := by
  rw [WaitForReceiptFrom.eq_def, he]
  have h5n : ¬ i ≥ 5 := by omega
  simp [h5n, hd]

/-- If every attempt from `i` on fails and the context never fires, the loop
started at `i ≤ 5` makes `6 - i` further calls and returns the wrapped error
of the attempt at index 5. -/
lemma wfr_allFail (rpc : RPCClient) (ctx : Ctx) (tx : Transaction) :
    ∀ d i, i ≤ 5 → 5 - i ≤ d →
      (∀ j, ∃ e, rpc.client.transactionReceipt j tx.hash = .error e) →
      (∀ j, ctx.doneAt j = false) →
      (WaitForReceiptFrom rpc ctx tx i).attempts = 6 - i ∧
      ∃ e, rpc.client.transactionReceipt 5 tx.hash = .error e ∧
        (WaitForReceiptFrom rpc ctx tx i).result = .error ("Cannot get the receipt:" ++ e) := by
  intro d
  induction d with
  | zero =>
    intro i hi5 hle hfail hquiet
    have hi : i = 5 := by omega
    subst hi
    obtain ⟨e, he⟩ := hfail 5
    rw [wfr_giveup_step rpc ctx tx 5 e he (by omega)]
    exact ⟨rfl, e, he, rfl⟩
  | succ d ih =>
    intro i hi5 hle hfail hquiet
    by_cases hi : i = 5
    · subst hi
      obtain ⟨e, he⟩ := hfail 5
      rw [wfr_giveup_step rpc ctx tx 5 e he (by omega)]
      exact ⟨rfl, e, he, rfl⟩
    · have hlt : i < 5 := by omega
      obtain ⟨e, he⟩ := hfail i
      have hrest := ih (i + 1) (by omega) (by omega) hfail hquiet
      rw [wfr_loop_step rpc ctx tx i e he hlt (hquiet i)]
      refine ⟨?_, hrest.2⟩
      simp only []
      rw [hrest.1]
      omega

/-- If the first successful attempt at or after `i` is at index `m ≤ 5` (all
attempts in between fail, context quiet in between), the loop started at `i`
returns that receipt after `m - i + 1` calls. -/
lemma wfr_firstSuccess (rpc : RPCClient) (ctx : Ctx) (tx : Transaction) :
    ∀ d i m r, i ≤ m → m ≤ 5 → m - i ≤ d →
      rpc.client.transactionReceipt m tx.hash = .ok r →
      (∀ j, i ≤ j → j < m → ∃ e, rpc.client.transactionReceipt j tx.hash = .error e) →
      (∀ j, i ≤ j → j < m → ctx.doneAt j = false) →
      (WaitForReceiptFrom rpc ctx tx i).result = .ok r ∧
      (WaitForReceiptFrom rpc ctx tx i).attempts = m - i + 1 := by
  intro d
  induction d with
  | zero =>
    intro i m r him hm5 hle hok hfail hquiet
    have hi : i = m := by omega
    subst hi
    rw [wfr_ok_step rpc ctx tx i r hok]
    refine ⟨rfl, ?_⟩
    show (1 : Nat) = _
    omega
  | succ d ih =>
    intro i m r him hm5 hle hok hfail hquiet
    by_cases hi : i = m
    · subst hi
      rw [wfr_ok_step rpc ctx tx i r hok]
      refine ⟨rfl, ?_⟩
      show (1 : Nat) = _
      omega
    · have hlt : i < m := by omega
      obtain ⟨e, he⟩ := hfail i (by omega) hlt
      have hrest := ih (i + 1) m r (by omega) hm5 (by omega) hok
        (fun j h1 h2 => hfail j (by omega) h2)
        (fun j h1 h2 => hquiet j (by omega) h2)
      rw [wfr_loop_step rpc ctx tx i e he (by omega) (hquiet i (by omega) hlt)]
      refine ⟨hrest.1, ?_⟩
      show (WaitForReceiptFrom rpc ctx tx (i + 1)).attempts + 1 = _
      rw [hrest.2]
      omega

/-- If attempts `i..k` all fail, the context is quiet strictly before `k` and
fires during the wait after attempt `k < 5`, the loop started at `i` stops
with the context error after `k - i + 1` calls. -/
lemma wfr_cancelled (rpc : RPCClient) (ctx : Ctx) (tx : Transaction) :
    ∀ d i k, i ≤ k → k < 5 → k - i ≤ d →
      (∀ j, i ≤ j → j ≤ k → ∃ e, rpc.client.transactionReceipt j tx.hash = .error e) →
      (∀ j, i ≤ j → j < k → ctx.doneAt j = false) →
      ctx.doneAt k = true →
      (WaitForReceiptFrom rpc ctx tx i).result = .error ctx.err ∧
      (WaitForReceiptFrom rpc ctx tx i).attempts = k - i + 1 := by
  intro d
  induction d with
  | zero =>
    intro i k him hk5 hle hfail hquiet hdone
    have hi : i = k := by omega
    subst hi
    obtain ⟨e, he⟩ := hfail i (by omega) (by omega)
    rw [wfr_cancel_step rpc ctx tx i e he hk5 hdone]
    refine ⟨rfl, ?_⟩
    show (1 : Nat) = _
    omega
  | succ d ih =>
    intro i k him hk5 hle hfail hquiet hdone
    by_cases hi : i = k
    · subst hi
      obtain ⟨e, he⟩ := hfail i (by omega) (by omega)
      rw [wfr_cancel_step rpc ctx tx i e he hk5 hdone]
      refine ⟨rfl, ?_⟩
      show (1 : Nat) = _
      omega
    · have hlt : i < k := by omega
      obtain ⟨e, he⟩ := hfail i (by omega) (by omega)
      have hrest := ih (i + 1) k (by omega) hk5 (by omega)
        (fun j h1 h2 => hfail j (by omega) h2)
        (fun j h1 h2 => hquiet j (by omega) h2) hdone
      rw [wfr_loop_step rpc ctx tx i e he (by omega) (hquiet i (by omega) hlt)]
      refine ⟨hrest.1, ?_⟩
      simp only []
      rw [hrest.2]
      omega

/-- Lemma support: `DeployContract` leaves the receiver unchanged on every path. -/
lemma deployContract_receiver (lib : Lib) (rpc : RPCClient) (ctx : Ctx)
    (pk : String) (d : String) : (DeployContract lib rpc ctx pk d).2 = rpc := by
  unfold DeployContract
  dsimp only
  repeat' split
  all_goals rfl

/-- C5: NetworkURL returns the documented endpoint for each of the five named
networks. -/
theorem networkURL_table :
    NetworkURL "testnet" = "https://testnet-rpc.gochain.io" ∧
    NetworkURL "mainnet" = "https://rpc.gochain.io" ∧
    NetworkURL "localhost" = "http://localhost:8545" ∧
    NetworkURL "ethereum" = "https://main-rpc.linkpool.io" ∧
    NetworkURL "ropsten" = "https://ropsten-rpc.linkpool.io" := by
  refine ⟨?_, ?_, ?_, ?_, ?_⟩ <;> rfl

/-- C10: NetworkURL maps the empty network name to the mainnet URL, and every
name outside the six recognised ones to the empty string. -/
theorem networkURL_default (s : String)
    (h : s ∉ (["testnet", "mainnet", "", "localhost", "ethereum", "ropsten"] : List String)) :
    NetworkURL "" = "https://rpc.gochain.io" ∧ NetworkURL s = "" := by
  refine ⟨rfl, ?_⟩
  simp only [List.mem_cons, List.not_mem_nil, or_false, not_or] at h
  obtain ⟨h1, h2, h3, h4, h5, h6⟩ := h
  simp [NetworkURL, h1, h2, h3, h4, h5, h6]

/-- Witness for C10 at the unrecognised name "rinkeby". -/
theorem networkURL_default_witness :
    NetworkURL "" = "https://rpc.gochain.io" ∧ NetworkURL "rinkeby" = "" :=
  networkURL_default "rinkeby" (by decide)

/-- C9: GetID never returns an error: it yields a record whose network-ID,
chain-ID and genesis-hash fields carry the successful query results and keep
their zero values (nil, nil, zero hash) for the failed queries. -/
theorem getID_never_errors (rpc : RPCClient) (ctx : Ctx) :
    (GetID rpc ctx).1 = .ok
      { networkID := match rpc.client.networkID with | .ok n => some n | .error _ => none,
        chainID := match rpc.client.chainID with | .ok c => some c | .error _ => none,
        genesisHash :=
          match rpc.client.blockByNumber (some 0) with | .ok b => b.hash | .error _ => 0 } := by
  unfold GetID
  cases hn : rpc.client.networkID <;> cases hc : rpc.client.chainID <;>
    cases hg : rpc.client.blockByNumber (some 0) <;> simp

/-- Witness for C9: on a client whose three queries all fail, GetID returns
the all-zero record with a nil error. -/
theorem getID_never_errors_witness :
    (GetID boomRPC quietCtx).1 = .ok { networkID := none, chainID := none, genesisHash := 0 } := by
  have h := getID_never_errors boomRPC quietCtx
  simpa [boomRPC, boomClient] using h

/-- C8: no operation of the client mutates the handle URL or the underlying
transport-client field, and identity records already handed out are never
modified (a `getID` call only appends a freshly allocated record). -/
theorem client_and_ids_immutable (lib : Lib) (ctx : Ctx) (op : Op) (s : St) :
    (runOp lib ctx op s).rpc.url = s.rpc.url ∧
    (runOp lib ctx op s).rpc.client = s.rpc.client ∧
    (runOp lib ctx op s).ids.take s.ids.length = s.ids := by
  cases op with
  | getBalance a bn => exact ⟨rfl, rfl, List.take_length s.ids⟩
  | getCode a bn => exact ⟨rfl, rfl, List.take_length s.ids⟩
  | getBlockByNumber n => exact ⟨rfl, rfl, List.take_length s.ids⟩
  | getTransactionByHash h => exact ⟨rfl, rfl, List.take_length s.ids⟩
  | getSnapshot => exact ⟨rfl, rfl, List.take_length s.ids⟩
  | getID =>
    refine ⟨rfl, rfl, ?_⟩
    simp only [runOp]
    exact List.take_left s.ids _
  | deployContract pk d =>
    refine ⟨?_, ?_, List.take_length s.ids⟩ <;>
      simp [runOp, deployContract_receiver]
  | waitForReceipt tx => exact ⟨rfl, rfl, List.take_length s.ids⟩

/-- Witness for C8 at a concrete `getID` step. -/
theorem client_and_ids_immutable_witness :
    (runOp plainLib quietCtx Op.getID { rpc := boomRPC, ids := [] }).rpc.url = boomRPC.url ∧
    (runOp plainLib quietCtx Op.getID { rpc := boomRPC, ids := [] }).rpc.client =
      boomRPC.client ∧
    (runOp plainLib quietCtx Op.getID { rpc := boomRPC, ids := [] }).ids.take 0 = [] := by
  have h := client_and_ids_immutable plainLib quietCtx Op.getID { rpc := boomRPC, ids := [] }
  simpa using h

/-- C1 counterexample: on a client whose `TransactionReceipt` always fails
and a context that never fires, WaitForReceipt makes 6 polling attempts, not
the 5 the claim states. -/
theorem waitForReceipt_five_attempts_cex :
    (WaitForReceipt boomRPC quietCtx ⟨8⟩).1.attempts = 6 ∧
    ¬ (WaitForReceipt boomRPC quietCtx ⟨8⟩).1.attempts = 5 := by
  have h := (wfr_allFail boomRPC quietCtx ⟨8⟩ 5 0 (by omega) (by omega)
    (fun j => ⟨"boom", rfl⟩) (fun j => rfl)).1
  have h6 : (WaitForReceipt boomRPC quietCtx ⟨8⟩).1.attempts = 6 := by
    simpa [WaitForReceipt] using h
  exact ⟨h6, by omega⟩

/-- C1 (amended): when every underlying `TransactionReceipt` call fails and
the context never fires, WaitForReceipt makes exactly 6 polling attempts
(loop indices 0 through 5) and returns a nil receipt together with an error
wrapping the last underlying error. -/
theorem waitForReceipt_gives_up (rpc : RPCClient) (ctx : Ctx) (tx : Transaction)
    (errs : Nat → Err)
    (hfail : ∀ i, rpc.client.transactionReceipt i tx.hash = .error (errs i))
    (hquiet : ∀ i, ctx.doneAt i = false) :
    (WaitForReceipt rpc ctx tx).1.attempts = 6 ∧
    (WaitForReceipt rpc ctx tx).1.result = .error ("Cannot get the receipt:" ++ errs 5) := by
  obtain ⟨h1, e, he, hres⟩ := wfr_allFail rpc ctx tx 5 0 (by omega) (by omega)
    (fun j => ⟨errs j, hfail j⟩) hquiet
  have hee : e = errs 5 := by
    have h2 := (hfail 5).symm.trans he
    exact (Except.error.injEq e (errs 5)).mp h2.symm
  constructor
  · simpa [WaitForReceipt] using h1
  · rw [hee] at hres
    simpa [WaitForReceipt] using hres

/-- Witness for C1 (amended) on the all-failing client. -/
theorem waitForReceipt_gives_up_witness :
    (WaitForReceipt boomRPC quietCtx ⟨8⟩).1.attempts = 6 ∧
    (WaitForReceipt boomRPC quietCtx ⟨8⟩).1.result =
      .error "Cannot get the receipt:boom" := by
  have h := waitForReceipt_gives_up boomRPC quietCtx ⟨8⟩ (fun _ => "boom")
    (fun i => rfl) (fun i => rfl)
  simpa using h

/-- C3: if the first successful `TransactionReceipt` call happens at attempt
index `m` within the retry bound (earlier attempts fail, context quiet),
WaitForReceipt returns that receipt with a nil error right away, after
`m + 1` calls. -/
theorem waitForReceipt_success (rpc : RPCClient) (ctx : Ctx) (tx : Transaction)
    (m : Nat) (r : Receipt)
    (hm : m ≤ 5)
    (hok : rpc.client.transactionReceipt m tx.hash = .ok r)
    (hfail : ∀ j, j < m → ∃ e, rpc.client.transactionReceipt j tx.hash = .error e)
    (hquiet : ∀ j, j < m → ctx.doneAt j = false) :
    (WaitForReceipt rpc ctx tx).1.result = .ok r ∧
    (WaitForReceipt rpc ctx tx).1.attempts = m + 1 := by
  have h := wfr_firstSuccess rpc ctx tx m 0 m r (by omega) hm (by omega) hok
    (fun j h1 h2 => hfail j h2) (fun j h1 h2 => hquiet j h2)
  constructor
  · simpa [WaitForReceipt] using h.1
  · have h2 := h.2
    rw [Nat.sub_zero] at h2
    simpa [WaitForReceipt] using h2

/-- Witness for C3: receipt found on the third attempt. -/
theorem waitForReceipt_success_witness :
    (WaitForReceipt ⟨"http://localhost:8545", lateReceiptClient⟩ quietCtx ⟨8⟩).1.result =
      .ok 9 ∧
    (WaitForReceipt ⟨"http://localhost:8545", lateReceiptClient⟩ quietCtx ⟨8⟩).1.attempts =
      3 := by
  have h := waitForReceipt_success ⟨"http://localhost:8545", lateReceiptClient⟩ quietCtx ⟨8⟩
    2 9 (by omega) rfl
    (fun j hj => ⟨"not found", by interval_cases j <;> rfl⟩)
    (fun j hj => rfl)
  simpa using h

/-- C4: if attempts 0 through `k` fail and the context fires during the wait
after attempt `k` (having been quiet before), WaitForReceipt performs no
further attempts and returns a nil receipt with the context's error. -/
theorem waitForReceipt_respects_cancel (rpc : RPCClient) (ctx : Ctx) (tx : Transaction)
    (k : Nat)
    (hk : k < 5)
    (hfail : ∀ j, j ≤ k → ∃ e, rpc.client.transactionReceipt j tx.hash = .error e)
    (hquiet : ∀ j, j < k → ctx.doneAt j = false)
    (hdone : ctx.doneAt k = true) :
    (WaitForReceipt rpc ctx tx).1.result = .error ctx.err ∧
    (WaitForReceipt rpc ctx tx).1.attempts = k + 1 := by
  have h := wfr_cancelled rpc ctx tx k 0 k (by omega) hk (by omega)
    (fun j h1 h2 => hfail j h2) (fun j h1 h2 => hquiet j h2) hdone
  constructor
  · simpa [WaitForReceipt] using h.1
  · have h2 := h.2
    rw [Nat.sub_zero] at h2
    simpa [WaitForReceipt] using h2

/-- Witness for C4: cancellation during the wait after the second attempt. -/
theorem waitForReceipt_respects_cancel_witness :
    (WaitForReceipt boomRPC lateCtx ⟨8⟩).1.result = .error "context canceled" ∧
    (WaitForReceipt boomRPC lateCtx ⟨8⟩).1.attempts = 2 := by
  have h := waitForReceipt_respects_cancel boomRPC lateCtx ⟨8⟩ 1 (by omega)
    (fun j hj => ⟨"boom", rfl⟩)
    (fun j hj => by
      have hj0 : j = 0 := by omega
      subst hj0
      rfl)
    rfl
  simpa [lateCtx] using h

/-- C7: between any two consecutive polling attempts of a run there is exactly
one completed wait, and every completed wait lasts `2 * time.Second`
(2000000000 nanoseconds). -/
theorem waitForReceipt_fixed_delay (rpc : RPCClient) (ctx : Ctx) (tx : Transaction) :
    (WaitForReceipt rpc ctx tx).1.waits =
      List.replicate ((WaitForReceipt rpc ctx tx).1.attempts - 1) (2 * timeSecond) ∧
    2 * timeSecond = 2000000000 :=
  ⟨wfr_waits_replicate rpc ctx tx 6 0 (by omega), rfl⟩

/-- Witness for C7 on a concrete cancelled run. -/
theorem waitForReceipt_fixed_delay_witness :
    (WaitForReceipt boomRPC lateCtx ⟨8⟩).1.waits =
      List.replicate ((WaitForReceipt boomRPC lateCtx ⟨8⟩).1.attempts - 1) (2 * timeSecond) ∧
    2 * timeSecond = 2000000000 :=
  waitForReceipt_fixed_delay boomRPC lateCtx ⟨8⟩

/-- C2 counterexample: on a client whose `BalanceAt` fails with `"boom"`,
GetBalance returns the underlying error value itself, with no contextual
prefix added. -/
theorem getBalance_unwrapped_cex :
    boomRPC.client.balanceAt (plainLib.hexToAddress "0xabc") none = Except.error "boom" ∧
    (GetBalance plainLib boomRPC quietCtx "0xabc" none).1 = Except.error "boom" :=
  ⟨rfl, rfl⟩

/-- C2 (amended): the pass-through accessors (GetBalance, GetCode,
GetBlockByNumber, GetTransactionByHash, GetSnapshot) return the underlying
library error unchanged, while DeployContract and WaitForReceipt's give-up
path string-wrap the underlying error with a contextual prefix. -/
theorem error_wrapping_split (lib : Lib) (rpc : RPCClient) (ctx : Ctx)
    (a : String) (bn : Option Int) (hsh : String) (tx : Transaction)
    (pkHex : String) (data : String) (e : Err) (errs : Nat → Err)
    (hb : rpc.client.balanceAt (lib.hexToAddress a) bn = .error e)
    (hc : rpc.client.codeAt (lib.hexToAddress a) bn = .error e)
    (hblk : rpc.client.blockByNumber bn = .error e)
    (htx : rpc.client.transactionByHash (lib.hexToHash hsh) = .error e)
    (hsn : rpc.client.snapshotAt none = .error e)
    (hpk : lib.hexToECDSA
      (if pkHex.length > 2 ∧ pkHex.take 2 = "0x" then pkHex.drop 2 else pkHex) = .error e)
    (hrec : ∀ i, rpc.client.transactionReceipt i tx.hash = .error (errs i))
    (hquiet : ∀ i, ctx.doneAt i = false) :
    (GetBalance lib rpc ctx a bn).1 = .error e ∧
    (GetCode lib rpc ctx a bn).1 = .error e ∧
    (GetBlockByNumber rpc ctx bn).1 = .error e ∧
    (GetTransactionByHash lib rpc ctx hsh).1 = .error e ∧
    (GetSnapshot rpc ctx).1 = .error e ∧
    (DeployContract lib rpc ctx pkHex data).1 = .error ("Wrong private key:" ++ e) ∧
    (WaitForReceipt rpc ctx tx).1.result = .error ("Cannot get the receipt:" ++ errs 5) := by
  refine ⟨hb, hc, hblk, htx, hsn, ?_, ?_⟩
  · simp only [DeployContract, hpk]
  · obtain ⟨h1, e2, he2, hres⟩ := wfr_allFail rpc ctx tx 5 0 (by omega) (by omega)
      (fun j => ⟨errs j, hrec j⟩) hquiet
    have hee : e2 = errs 5 := by
      have h2 := (hrec 5).symm.trans he2
      exact (Except.error.injEq e2 (errs 5)).mp h2.symm
    rw [hee] at hres
    simpa [WaitForReceipt] using hres

/-- Witness for C2 (amended) at an all-failing client and key parser. -/
theorem error_wrapping_split_witness :
    (GetBalance badKeyLib boomRPC quietCtx "0xabc" none).1 = .error "boom" ∧
    (GetCode badKeyLib boomRPC quietCtx "0xabc" none).1 = .error "boom" ∧
    (GetBlockByNumber boomRPC quietCtx none).1 = .error "boom" ∧
    (GetTransactionByHash badKeyLib boomRPC quietCtx "0xdead").1 = .error "boom" ∧
    (GetSnapshot boomRPC quietCtx).1 = .error "boom" ∧
    (DeployContract badKeyLib boomRPC quietCtx "abcd" "0x00").1 =
      .error "Wrong private key:boom" ∧
    (WaitForReceipt boomRPC quietCtx ⟨8⟩).1.result =
      .error "Cannot get the receipt:boom" := by
  have h := error_wrapping_split badKeyLib boomRPC quietCtx "0xabc" none "0xdead" ⟨8⟩
    "abcd" "0x00" "boom" (fun _ => "boom") rfl rfl rfl rfl rfl rfl
    (fun i => rfl) (fun i => rfl)
  simpa using h

/-- C6: DeployContract is the linear sequence of library calls from the
source: each early failure (private-key parsing, gas price, ECDSA cast,
nonce, contract-data decoding, sending) returns a nil transaction with the
corresponding prefixed error, and when every step succeeds it returns the
signed contract-creation transaction built from the pending nonce, zero
value, the 2000000 gas limit, the suggested gas price and the hex-decoded
contract data. -/
theorem deployContract_linear (lib : Lib) (rpc : RPCClient) (ctx : Ctx)
    (pkHex : String) (data : String) :
    (∀ e, lib.hexToECDSA
        (if pkHex.length > 2 ∧ pkHex.take 2 = "0x" then pkHex.drop 2 else pkHex) = .error e →
      (DeployContract lib rpc ctx pkHex data).1 = .error ("Wrong private key:" ++ e)) ∧
    (∀ k e, lib.hexToECDSA
        (if pkHex.length > 2 ∧ pkHex.take 2 = "0x" then pkHex.drop 2 else pkHex) = .ok k →
      rpc.client.suggestGasPrice = .error e →
      (DeployContract lib rpc ctx pkHex data).1 = .error ("Cannot get gas price:" ++ e)) ∧
    (∀ k g, lib.hexToECDSA
        (if pkHex.length > 2 ∧ pkHex.take 2 = "0x" then pkHex.drop 2 else pkHex) = .ok k →
      rpc.client.suggestGasPrice = .ok g →
      lib.castECDSA (lib.publicOf k) = none →
      (DeployContract lib rpc ctx pkHex data).1 = .error "error casting public key to ECDSA") ∧
    (∀ k g pub e, lib.hexToECDSA
        (if pkHex.length > 2 ∧ pkHex.take 2 = "0x" then pkHex.drop 2 else pkHex) = .ok k →
      rpc.client.suggestGasPrice = .ok g →
      lib.castECDSA (lib.publicOf k) = some pub →
      rpc.client.pendingNonceAt (lib.pubkeyToAddress pub) = .error e →
      (DeployContract lib rpc ctx pkHex data).1 = .error ("Cannot get nonce:" ++ e)) ∧
    (∀ k g pub n e, lib.hexToECDSA
        (if pkHex.length > 2 ∧ pkHex.take 2 = "0x" then pkHex.drop 2 else pkHex) = .ok k →
      rpc.client.suggestGasPrice = .ok g →
      lib.castECDSA (lib.publicOf k) = some pub →
      rpc.client.pendingNonceAt (lib.pubkeyToAddress pub) = .ok n →
      lib.hexDecode data = .error e →
      (DeployContract lib rpc ctx pkHex data).1 =
        .error ("Cannot decode contract data:" ++ e)) ∧
    (∀ k g pub n bytes e, lib.hexToECDSA
        (if pkHex.length > 2 ∧ pkHex.take 2 = "0x" then pkHex.drop 2 else pkHex) = .ok k →
      rpc.client.suggestGasPrice = .ok g →
      lib.castECDSA (lib.publicOf k) = some pub →
      rpc.client.pendingNonceAt (lib.pubkeyToAddress pub) = .ok n →
      lib.hexDecode data = .ok bytes →
      rpc.client.sendTransaction
        (lib.signTx (lib.newContractCreation n 0 2000000 g bytes) k).1 = .error e →
      (DeployContract lib rpc ctx pkHex data).1 = .error ("Cannot send transaction:" ++ e)) ∧
    (∀ k g pub n bytes, lib.hexToECDSA
        (if pkHex.length > 2 ∧ pkHex.take 2 = "0x" then pkHex.drop 2 else pkHex) = .ok k →
      rpc.client.suggestGasPrice = .ok g →
      lib.castECDSA (lib.publicOf k) = some pub →
      rpc.client.pendingNonceAt (lib.pubkeyToAddress pub) = .ok n →
      lib.hexDecode data = .ok bytes →
      rpc.client.sendTransaction
        (lib.signTx (lib.newContractCreation n 0 2000000 g bytes) k).1 = .ok () →
      (DeployContract lib rpc ctx pkHex data).1 =
        .ok (lib.signTx (lib.newContractCreation n 0 2000000 g bytes) k).1) := by
  refine ⟨?_, ?_, ?_, ?_, ?_, ?_, ?_⟩
  · intro e h1
    simp only [DeployContract, h1]
  · intro k e h1 h2
    simp only [DeployContract, h1, h2]
  · intro k g h1 h2 h3
    simp only [DeployContract, h1, h2, h3]
  · intro k g pub e h1 h2 h3 h4
    simp only [DeployContract, h1, h2, h3, h4]
  · intro k g pub n e h1 h2 h3 h4 h5
    simp only [DeployContract, h1, h2, h3, h4, h5]
  · intro k g pub n bytes e h1 h2 h3 h4 h5 h6
    simp only [DeployContract, h1, h2, h3, h4, h5, h6]
  · intro k g pub n bytes h1 h2 h3 h4 h5 h6
    simp only [DeployContract, h1, h2, h3, h4, h5, h6]

/-- Witness for C6: a successful deployment on the all-succeeding oracle; the
returned transaction is the signed contract creation for nonce 4, gas price 2
and data `[1, 2, 3]`. -/
theorem deployContract_linear_witness :
    (DeployContract plainLib okRPC quietCtx "0xabcd" "0x00").1 =
      .ok ⟨2000008⟩ := by
  have h := (deployContract_linear plainLib okRPC quietCtx "0xabcd" "0x00").2.2.2.2.2.2
    11 2 12 4 [1, 2, 3] rfl rfl rfl rfl rfl rfl
  simpa [plainLib] using h

end Web3
